import Mathlib

/-!
Verification development for the Crypto-Arbitrage-Tool-Updater repository.

The Go sources and the spot differential SQL statement are shallowly embedded
here.  SQL `NUMERIC` values, Go `float64` values produced by `parseFloat`, and
timestamps are idealised as rationals (`ℚ`); Go's IEEE special values are
modelled explicitly by the `GoFloat` carrier where the code branches on them.
The decimal-string round-trip rounding used by `fmt.Sprintf("%.Nf")` is
modelled as round-half-away-from-zero at the given scale, which is the
semantics the repository's own documentation ascribes to it; PostgreSQL
`ROUND(x, n)` on `NUMERIC` is the same rounding and `TRUNC(x, n)` is
truncation toward zero.
-/

/-! ## Decimal rounding primitives -/

/-- Truncation of a rational toward zero, as PostgreSQL `TRUNC` does
(written with the executable `Rat.floor` so that witnesses evaluate). -/
def ratTruncZ (x : ℚ) : ℤ :=
  if 0 ≤ x then x.floor else -((-x).floor)

/-- Round half away from zero to the nearest integer, as PostgreSQL
`ROUND` on `NUMERIC` does and as the Go adapters' decimal-string
round-trip is specified to behave. -/
def ratRoundHalfAway (x : ℚ) : ℤ :=
  if 0 ≤ x then (x + 1/2).floor else -((1/2 - x).floor)

theorem ratFloor_eq_floor (q : ℚ) : q.floor = ⌊q⌋ := rfl

theorem ratTruncZ_def (x : ℚ) :
    ratTruncZ x = if 0 ≤ x then ⌊x⌋ else ⌈x⌉ := by
  unfold ratTruncZ
  split
  · rfl
  · rw [ratFloor_eq_floor, Int.floor_neg, neg_neg]

theorem ratRoundHalfAway_def (x : ℚ) :
    ratRoundHalfAway x = if 0 ≤ x then ⌊x + 1/2⌋ else ⌈x - 1/2⌉ := by
  unfold ratRoundHalfAway
  split
  · rfl
  · rw [show (1/2 - x : ℚ) = -(x - 1/2) by ring, ratFloor_eq_floor,
      Int.floor_neg, neg_neg]

/-- `TRUNC(x, s)`: truncate toward zero keeping `s` fractional digits. -/
def truncScale (s : ℕ) (x : ℚ) : ℚ :=
  (ratTruncZ (x * 10 ^ s) : ℚ) / 10 ^ s

/-- `ROUND(x, s)`: round half away from zero keeping `s` fractional digits. -/
def roundScale (s : ℕ) (x : ℚ) : ℚ :=
  (ratRoundHalfAway (x * 10 ^ s) : ℚ) / 10 ^ s

theorem ratRoundHalfAway_neg (x : ℚ) :
    ratRoundHalfAway (-x) = -ratRoundHalfAway x := by
  simp only [ratRoundHalfAway_def]
  rcases lt_trichotomy x 0 with hx | hx | hx
  · rw [if_pos (by linarith : (0 : ℚ) ≤ -x), if_neg (by linarith : ¬ (0 : ℚ) ≤ x)]
    rw [show -x + 1/2 = -(x - 1/2) by ring, Int.floor_neg]
  · subst hx; norm_num
  · rw [if_neg (by linarith : ¬ (0 : ℚ) ≤ -x), if_pos (by linarith : (0 : ℚ) ≤ x)]
    rw [show -x - 1/2 = -(x + 1/2) by ring, Int.ceil_neg]

theorem ratRoundHalfAway_mono {x y : ℚ} (h : x ≤ y) :
    ratRoundHalfAway x ≤ ratRoundHalfAway y := by
  simp only [ratRoundHalfAway_def]
  by_cases hx : 0 ≤ x
  · rw [if_pos hx, if_pos (le_trans hx h)]
    exact Int.floor_le_floor (by linarith)
  · rw [if_neg hx]
    by_cases hy : 0 ≤ y
    · rw [if_pos hy]
      have h1 : (⌈x - 1/2⌉ : ℤ) ≤ 0 := by
        apply Int.ceil_le.mpr; push_neg at hx; push_cast; linarith
      have h2 : (0 : ℤ) ≤ ⌊y + 1/2⌋ := by
        apply Int.le_floor.mpr; push_cast; linarith
      omega
    · rw [if_neg hy]
      exact Int.ceil_le_ceil (by linarith)

theorem ratRoundHalfAway_intCast (k : ℤ) :
    ratRoundHalfAway (k : ℚ) = k := by
  simp only [ratRoundHalfAway_def]
  by_cases hk : (0 : ℚ) ≤ (k : ℚ)
  · rw [if_pos hk]
    apply Int.floor_eq_iff.mpr
    constructor
    · linarith
    · linarith
  · rw [if_neg hk]
    apply Int.ceil_eq_iff.mpr
    constructor
    · linarith
    · linarith

theorem roundScale_neg (s : ℕ) (x : ℚ) :
    roundScale s (-x) = -roundScale s x := by
  unfold roundScale
  rw [show -x * 10 ^ s = -(x * 10 ^ s) by ring, ratRoundHalfAway_neg]
  push_cast; ring

theorem roundScale_mono (s : ℕ) {x y : ℚ} (h : x ≤ y) :
    roundScale s x ≤ roundScale s y := by
  unfold roundScale
  have hpow : (0 : ℚ) < 10 ^ s := by positivity
  have hm : ratRoundHalfAway (x * 10 ^ s) ≤ ratRoundHalfAway (y * 10 ^ s) :=
    ratRoundHalfAway_mono (by nlinarith)
  have hm' : ((ratRoundHalfAway (x * 10 ^ s) : ℚ)) ≤
      ((ratRoundHalfAway (y * 10 ^ s) : ℚ)) := by exact_mod_cast hm
  exact div_le_div_of_nonneg_right hm' hpow.le

/-! ## Sanitizer (`okx.sanitizeDecimal`, `huobi.sanitizeDecimal`) -/

/-- Go `float64` idealised: an exact rational, or one of the IEEE special
values that the source branches on via `math.IsNaN` / `math.IsInf`. -/
inductive GoFloat where
  | nan : GoFloat
  | inf (negative : Bool) : GoFloat
  | finite (val : ℚ) : GoFloat
deriving DecidableEq

/-- `sanitizeDecimal(value, maxValue, precision)`: NaN and ±Inf collapse to 0;
finite values are clamped to `[-maxValue, maxValue]` and then run through
`fmt.Sprintf("%.<precision>f")` followed by `strconv.ParseFloat`, i.e. rounded
to `precision` fractional digits. -/
def sanitizeDecimal (value : GoFloat) (maxValue : ℚ) (precision : ℕ) : ℚ :=
  match value with
  | .nan => 0
  | .inf _ => 0
  | .finite v =>
      let clamped :=
        if v > maxValue then maxValue
        else if v < -maxValue then -maxValue
        else v
      roundScale precision clamped

/-- `MAX_DECIMAL_18_8` constant shared by the okx and huobi adapters. -/
def MAX_DECIMAL_18_8 : ℚ := 9999999999.99999999

/-- `MAX_DECIMAL_10_2` constant shared by the okx and huobi adapters. -/
def MAX_DECIMAL_10_2 : ℚ := 99999999.99

/-- `MAX_DECIMAL_20_2` constant shared by the okx and huobi adapters. -/
def MAX_DECIMAL_20_2 : ℚ := 999999999999999999.99

/-- `okx.calculatePercentChange` / `huobi.calculatePercentChange`. -/
def calculatePercentChange (openPrice closePrice : ℚ) : ℚ :=
  if openPrice = 0 then 0
  else ((closePrice - openPrice) / openPrice) * 100

/-! ## Placeholder generation (`generateNumberedPlaceholders`) -/

/-- One parenthesised group produced by the inner `j` loop of
`generateNumberedPlaceholders`, starting from the given counter value:
the loop body emits `"$" + strconv.Itoa(counter)` and increments the
counter, so slot `j` carries `counter + j`. -/
def placeholderGroup (counter fieldCount : ℕ) : String :=
  "(" ++ String.intercalate ", "
      ((List.range fieldCount).map fun j => "$" ++ toString (counter + j)) ++ ")"

/-- The outer `i` loop of `generateNumberedPlaceholders` with the mutable
counter threaded through: each iteration consumes `fieldCount` numbers. -/
def placeholderRows : ℕ → ℕ → ℕ → List String
  | 0, _, _ => []
  | rows + 1, counter, fieldCount =>
      placeholderGroup counter fieldCount ::
        placeholderRows rows (counter + fieldCount) fieldCount

/-- `generateNumberedPlaceholders(rows, fieldCount)` (identical in the okx,
gate, huobi, binance, bybit and bitget adapters): counter starts at 1 and the
groups are joined with `", "`. -/
def generateNumberedPlaceholders (rows fieldCount : ℕ) : String :=
  String.intercalate ", " (placeholderRows rows 1 fieldCount)

/-- The output shape described by the specification: `rows` parenthesised
groups, each with `fieldCount` positional placeholders, numbered consecutively
`$1 .. $(rows*fieldCount)` in row-major order. -/
def numberedPlaceholdersSpec (rows fieldCount : ℕ) : String :=
  String.intercalate ", " ((List.range rows).map fun i =>
    "(" ++ String.intercalate ", "
        ((List.range fieldCount).map fun j =>
          "$" ++ toString (i * fieldCount + j + 1)) ++ ")")

theorem placeholderRows_eq_map (rows counter fieldCount : ℕ) :
    placeholderRows rows counter fieldCount =
      (List.range rows).map fun i =>
        placeholderGroup (counter + i * fieldCount) fieldCount := by
  induction rows generalizing counter with
  | zero => simp [placeholderRows]
  | succ n ih =>
      rw [placeholderRows, ih, List.range_succ_eq_map, List.map_cons, List.map_map]
      congr 1
      · norm_num
      · apply List.map_congr_left
        intro i _
        have : counter + fieldCount + i * fieldCount
            = counter + (i + 1) * fieldCount := by ring
        simp only [Function.comp]
        rw [this]

/-! ## Spot differential statement (`updateDiffs` CTE pipeline)

Embeds the `market_combinations`, `calculated_diffs` and `updating_data`
CTEs and the final `INSERT ... ON CONFLICT (pairKey) DO UPDATE`.  The
`diffs` schema has `timeOfLife TIMESTAMP NULL` and
`timeElapsed INTERVAL NOT NULL DEFAULT '0 seconds'`, so a prior row's
`timeElapsed` is never NULL while its `timeOfLife` may be.  Timestamps and
intervals are rationals; `NOW() AT TIME ZONE 'UTC'` is the parameter `now`,
constant across one statement. -/

/-- A row of the `pairs` snapshot table as read by the differential join. -/
structure PairRow where
  symbol : String
  exchange : String
  market : String
  price : ℚ
  baseVolume24h : ℚ
  baseAsset : String
  quoteAsset : String
deriving DecidableEq

/-- A row of the `market_combinations` CTE. -/
structure Combo where
  symbol : String
  firstPairExchange : String
  firstPairMarket : String
  firstPairPrice : ℚ
  firstPairVolume : ℚ
  baseAsset : String
  quoteAsset : String
  secondPairExchange : String
  secondPairMarket : String
  secondPairPrice : ℚ
  secondPairVolume : ℚ
deriving DecidableEq

/-- The column projection of one joined pair `(a, b)`. -/
def mkCombo (a b : PairRow) : Combo :=
  { symbol := a.symbol
  , firstPairExchange := a.exchange
  , firstPairMarket := a.market
  , firstPairPrice := a.price
  , firstPairVolume := a.baseVolume24h
  , baseAsset := a.baseAsset
  , quoteAsset := a.quoteAsset
  , secondPairExchange := b.exchange
  , secondPairMarket := b.market
  , secondPairPrice := b.price
  , secondPairVolume := b.baseVolume24h }

/-- `FROM pairs a JOIN pairs b ON a.symbol = b.symbol AND a.exchange <>
b.exchange WHERE a.price <> 0 AND b.price <> 0`. -/
def marketCombinations (ps : List PairRow) : List Combo :=
  ps.flatMap fun a =>
    ((ps.filter fun b =>
        decide (a.symbol = b.symbol ∧ a.exchange ≠ b.exchange ∧
          a.price ≠ 0 ∧ b.price ≠ 0)).map fun b => mkCombo a b)

/-- A row of the `calculated_diffs` CTE. -/
structure CalcDiff where
  symbol : String
  pairKey : String
  firstPairExchange : String
  firstPairMarket : String
  firstPairPrice : ℚ
  firstPairVolume : ℚ
  secondPairExchange : String
  secondPairMarket : String
  baseAsset : String
  quoteAsset : String
  secondPairPrice : ℚ
  secondPairVolume : ℚ
  difference : ℚ
  differencePercentage : ℚ
deriving DecidableEq

/-- The `calculated_diffs` SELECT list.  The output aliases
`firstPairPrice` / `secondPairPrice` are not visible inside sibling
expressions of the same SELECT, so `difference` and `differencePercentage`
are computed from the raw `market_combinations` prices. -/
def calcDiff (c : Combo) : CalcDiff :=
  let t := truncScale 2 (((c.secondPairPrice - c.firstPairPrice) / c.firstPairPrice) * 100)
  { symbol := c.symbol
  , pairKey := c.symbol ++ "_" ++ c.firstPairExchange ++ "-" ++ c.secondPairExchange
  , firstPairExchange := c.firstPairExchange
  , firstPairMarket := c.firstPairMarket
  , firstPairPrice := roundScale 8 c.firstPairPrice
  , firstPairVolume := roundScale 2 c.firstPairVolume
  , secondPairExchange := c.secondPairExchange
  , secondPairMarket := c.secondPairMarket
  , baseAsset := c.baseAsset
  , quoteAsset := c.quoteAsset
  , secondPairPrice := roundScale 8 c.secondPairPrice
  , secondPairVolume := roundScale 2 c.secondPairVolume
  , difference := roundScale 8 (c.secondPairPrice - c.firstPairPrice)
  , differencePercentage :=
      if t > 1000000000 then 1000000000
      else if t < -1000000000 then -1000000000
      else t }

/-- The `calculated_diffs` CTE over the snapshot. -/
def calculatedDiffs (ps : List PairRow) : List CalcDiff :=
  (marketCombinations ps).map calcDiff

/-- The columns of a prior `diffs` row consumed by the `LEFT JOIN diffs
prev` (the schema makes `timeElapsed` non-nullable). -/
structure StoredDiff where
  timeOfLife : Option ℚ
  timeElapsed : ℚ
deriving DecidableEq

/-- A row of the `updating_data` CTE, restricted to the columns the claims
are about; all of them are copied verbatim into the INSERT and, on
conflict, into the `DO UPDATE SET` via `EXCLUDED`. -/
structure UpdRow where
  pairKey : String
  difference : ℚ
  differencePercentage : ℚ
  timeOfLife : Option ℚ
  timeElapsed : ℚ
deriving DecidableEq

/-- One `updating_data` row: the two CASE expressions for `timeOfLife` and
`timeElapsed`, with `prev` the unique-key lookup of the LEFT JOIN (`none`
when no prior row exists). -/
def updRow (now : ℚ) (prev : String → Option StoredDiff) (d : CalcDiff) : UpdRow :=
  let prevTOL : Option ℚ := (prev d.pairKey).bind StoredDiff.timeOfLife
  { pairKey := d.pairKey
  , difference := d.difference
  , differencePercentage := d.differencePercentage
  , timeOfLife :=
      if d.differencePercentage > 0 then some (prevTOL.getD now) else none
  , timeElapsed :=
      if d.differencePercentage > 0 then
        match prev d.pairKey with
        | some p =>
            match p.timeOfLife with
            | some t => p.timeElapsed + (now - t)
            | none => 0
        | none => 0
      else 0 }

/-- The `updating_data` CTE: `calculated_diffs` left-joined against the
existing `diffs` table on `pairKey`. -/
def updatingData (now : ℚ) (prev : String → Option StoredDiff)
    (ps : List PairRow) : List UpdRow :=
  (calculatedDiffs ps).map (updRow now prev)

theorem mem_marketCombinations {ps : List PairRow} {c : Combo}
    (hc : c ∈ marketCombinations ps) :
    ∃ a ∈ ps, ∃ b ∈ ps, a.symbol = b.symbol ∧ a.exchange ≠ b.exchange ∧
      a.price ≠ 0 ∧ b.price ≠ 0 ∧ c = mkCombo a b := by
  simp only [marketCombinations, List.mem_flatMap, List.mem_map,
    List.mem_filter, decide_eq_true_eq] at hc
  obtain ⟨a, ha, b, ⟨hb, h1, h2, h3, h4⟩, rfl⟩ := hc
  exact ⟨a, ha, b, hb, h1, h2, h3, h4, rfl⟩

theorem mkCombo_mem_marketCombinations {ps : List PairRow} {a b : PairRow}
    (ha : a ∈ ps) (hb : b ∈ ps) (h1 : a.symbol = b.symbol)
    (h2 : a.exchange ≠ b.exchange) (h3 : a.price ≠ 0) (h4 : b.price ≠ 0) :
    mkCombo a b ∈ marketCombinations ps := by
  simp only [marketCombinations, List.mem_flatMap, List.mem_map,
    List.mem_filter, decide_eq_true_eq]
  exact ⟨a, ha, b, ⟨hb, h1, h2, h3, h4⟩, rfl⟩

theorem sqlClamp_eq_max_min (t : ℚ) :
    (if t > 1000000000 then (1000000000 : ℚ)
     else if t < -1000000000 then -1000000000 else t)
      = max (-1000000000) (min t 1000000000) := by
  split_ifs with h1 h2
  · rw [min_eq_right h1.le, max_eq_right (by norm_num)]
  · rw [min_eq_left (by linarith), max_eq_left h2.le]
  · push_neg at h1 h2
    rw [min_eq_left h1, max_eq_right h2]

/-! ## Venue adapters (normalisation pipelines)

Numeric payload fields are carried as the rationals produced by the
adapters' `parseFloat` helpers (empty strings and parse failures contribute
`0`); the NaN/Inf carriers of `GoFloat` can only arise from literal
special-value strings in the payload and no claim below depends on them, so
the payload structs store `ℚ` and wrap values in `GoFloat.finite` exactly
where the source hands them to `sanitizeDecimal`.  `UpdatedAt` / `CreatedAt`
wall-clock fields are omitted. -/

/-- `models.Pair`, the normalized record handed to the snapshot writer. -/
structure GoPair where
  pairKey : String
  symbol : String
  exchange : String
  market : String
  price : ℚ
  baseAsset : String
  quoteAsset : String
  displayName : String
  priceChangePercent24h : ℚ
  baseVolume24h : ℚ
  quoteVolume24h : ℚ
deriving DecidableEq

/-- Go map built from a slice by keyed insertion: later entries overwrite
earlier ones, so lookup finds the last entry with the key. -/
def goMapLookup {α : Type} (key : α → String) (l : List α) (k : String) :
    Option α :=
  l.reverse.find? fun x => key x == k

/-- Go string slicing `s[:n]` guarded by a length check (ASCII byte
truncation coincides with character truncation for the fields involved). -/
def goTrunc (n : ℕ) (s : String) : String :=
  if s.length > n then s.take n else s

/-- `strings.Split(s, sep)` for a one-character separator, written over the
character list so that it evaluates. -/
def goSplit (c : Char) (s : String) : List String :=
  (s.toList.splitOn c).map fun l => String.mk l

/-- `strings.ReplaceAll(s, sep, "")` for a one-character separator. -/
def goRemoveChar (c : Char) (s : String) : String :=
  String.mk (s.toList.filter fun x => x ≠ c)

/-- `strings.ToUpper` (the fields involved are ASCII). -/
def goUpper (s : String) : String :=
  String.mk (s.toList.map Char.toUpper)

/-- One entry of the OKX `/market/tickers` payload after `parseFloat`;
`none` in `change24h` / `open24h` models the empty string the source tests
for. -/
structure OkxTicker where
  instId : String
  last : ℚ
  vol24h : ℚ
  volCcy24h : ℚ
  change24h : Option ℚ
  open24h : Option ℚ
deriving DecidableEq

/-- The per-entry body of the `okx.UpdateAllSpotPairs` normalisation loop:
symbols that do not split into exactly two parts on `"-"` are skipped, the
price is sanitised at scale 8, and entries whose sanitised price is not
strictly positive are dropped (`continue`). -/
def okxPairOfTicker (d : OkxTicker) : Option GoPair :=
  match goSplit '-' d.instId with
  | [baseAsset, quoteAsset] =>
      let price := sanitizeDecimal (.finite d.last) MAX_DECIMAL_18_8 8
      let baseVolume := sanitizeDecimal (.finite d.vol24h) MAX_DECIMAL_20_2 2
      let quoteVolume := sanitizeDecimal (.finite d.volCcy24h) MAX_DECIMAL_20_2 2
      let priceChangePercent :=
        match d.change24h, d.open24h with
        | some c, _ => sanitizeDecimal (.finite c) MAX_DECIMAL_10_2 2
        | none, some o =>
            sanitizeDecimal (.finite (calculatePercentChange o price)) MAX_DECIMAL_10_2 2
        | none, none => 0
      if price ≤ 0 then none
      else some
        { pairKey := goRemoveChar '-' d.instId ++ "_OKX_spot"
        , symbol := goRemoveChar '-' d.instId
        , exchange := "OKX"
        , market := "spot"
        , price := price
        , baseAsset := baseAsset
        , quoteAsset := quoteAsset
        , displayName := baseAsset ++ "/" ++ quoteAsset
        , priceChangePercent24h := priceChangePercent
        , baseVolume24h := baseVolume
        , quoteVolume24h := quoteVolume }
  | _ => none

/-- The batch built by `okx.UpdateAllSpotPairs` before the write phase. -/
def okxPairs (tickerData : List OkxTicker) : List GoPair :=
  tickerData.filterMap okxPairOfTicker

/-- One entry of the Huobi `/v1/common/symbols` payload. -/
structure HuobiSymbol where
  symbol : String
  baseCurrency : String
  quoteCurrency : String
  state : String
deriving DecidableEq

/-- One entry of the Huobi `/market/tickers` payload after parsing. -/
structure HuobiTicker where
  symbol : String
  openPrice : ℚ
  closePrice : ℚ
  amount : ℚ
  vol : ℚ
deriving DecidableEq

/-- The per-symbol body of the `huobi.UpdateAllSpotPairs` loop: skip
non-`online` symbols and symbols without ticker data; drop entries whose
sanitised price is not strictly positive; uppercase the assets and the
symbol; truncate over-long fields; build `pairKey` as
`SYMBOL + "_HUOBI_SPOT"`. -/
def huobiPairOfSymbol (tickers : List HuobiTicker) (sym0 : HuobiSymbol) :
    Option GoPair :=
  if sym0.state ≠ "online" then none
  else
    match goMapLookup HuobiTicker.symbol tickers sym0.symbol with
    | none => none
    | some t =>
        let priceChangePercent := calculatePercentChange t.openPrice t.closePrice
        let price := sanitizeDecimal (.finite t.closePrice) MAX_DECIMAL_18_8 8
        let priceChangeFormatted :=
          sanitizeDecimal (.finite priceChangePercent) MAX_DECIMAL_10_2 2
        let baseVolume := sanitizeDecimal (.finite t.amount) MAX_DECIMAL_20_2 2
        let quoteVolume := sanitizeDecimal (.finite t.vol) MAX_DECIMAL_20_2 2
        if price ≤ 0 then none
        else
          let baseAsset := goTrunc 20 (goUpper sym0.baseCurrency)
          let quoteAsset := goTrunc 20 (goUpper sym0.quoteCurrency)
          let symbol := goTrunc 20 sym0.symbol
          let displayName := goTrunc 20 (goUpper baseAsset ++ "/" ++ goUpper quoteAsset)
          let pairKey := goTrunc 50 (goUpper symbol ++ "_HUOBI_SPOT")
          some
            { pairKey := pairKey
            , symbol := goUpper symbol
            , exchange := "Huobi"
            , market := "spot"
            , price := price
            , baseAsset := goUpper baseAsset
            , quoteAsset := goUpper quoteAsset
            , displayName := displayName
            , priceChangePercent24h := priceChangeFormatted
            , baseVolume24h := baseVolume
            , quoteVolume24h := quoteVolume }

/-- The batch built by `huobi.UpdateAllSpotPairs` before the write phase. -/
def huobiPairs (symbols : List HuobiSymbol) (tickers : List HuobiTicker) :
    List GoPair :=
  symbols.filterMap (huobiPairOfSymbol tickers)

/-- One entry of the Bybit spot instruments payload. -/
structure BybitSymbol where
  symbol : String
  baseAsset : String
  quoteAsset : String
deriving DecidableEq

/-- One entry of the Bybit spot tickers payload after `parseFloat`. -/
structure BybitTicker where
  symbol : String
  lastPrice : ℚ
  priceChange24h : ℚ
  baseVolume24h : ℚ
  quoteVolume24h : ℚ
deriving DecidableEq

/-- The batch built by `bybit.UpdateAllSpotPairs`: every symbol with ticker
data is emitted — there is no check on the parsed price, and the 24h change
fraction is scaled by 100. -/
def bybitPairs (symbols : List BybitSymbol) (tickers : List BybitTicker) :
    List GoPair :=
  symbols.filterMap fun sym =>
    (goMapLookup BybitTicker.symbol tickers sym.symbol).map fun t =>
      { pairKey := sym.symbol ++ "_Bybit_spot"
      , symbol := sym.symbol
      , exchange := "Bybit"
      , market := "spot"
      , price := t.lastPrice
      , baseAsset := sym.baseAsset
      , quoteAsset := sym.quoteAsset
      , displayName := sym.baseAsset ++ "/" ++ sym.quoteAsset
      , priceChangePercent24h := t.priceChange24h * 100
      , baseVolume24h := t.baseVolume24h
      , quoteVolume24h := t.quoteVolume24h }

/-! ## Snapshot writer control flow -/

/-- Success/failure of the database primitives one writer invocation hits. -/
structure DbConn where
  beginOk : Bool
  prepareOk : Bool
  execOk : Bool
  commitOk : Bool
deriving DecidableEq

/-- Observable outcome of one writer invocation: the boolean returned, and
whether `db.Begin()` was reached and succeeded (a transaction was opened). -/
structure WriterOutcome where
  result : Bool
  openedTx : Bool
deriving DecidableEq

/-- `kraken.savePairsToDB`: the empty-batch guard precedes `db.Begin()` and
returns `false`; otherwise exec then commit inside the transaction. -/
def savePairsToDB (db : DbConn) (pairs : List GoPair) : WriterOutcome :=
  if pairs.length = 0 then ⟨false, false⟩
  else if !db.beginOk then ⟨false, false⟩
  else if !db.execOk then ⟨false, true⟩
  else if !db.commitOk then ⟨false, true⟩
  else ⟨true, true⟩

/-- The write phase of `huobi.UpdateAllSpotPairs`: empty batches return
`false` before `db.Begin()`; otherwise prepare, execute, commit. -/
def huobiWritePairs (db : DbConn) (pairs : List GoPair) : WriterOutcome :=
  if pairs.length = 0 then ⟨false, false⟩
  else if !db.beginOk then ⟨false, false⟩
  else if !db.prepareOk then ⟨false, true⟩
  else if !db.execOk then ⟨false, true⟩
  else if !db.commitOk then ⟨false, true⟩
  else ⟨true, true⟩

/-- The write phase of `okx.UpdateAllSpotPairs`: there is no empty-batch
guard — `db.Begin()` is called unconditionally, whatever the batch. -/
def okxWritePairs (db : DbConn) (_pairs : List GoPair) : WriterOutcome :=
  if !db.beginOk then ⟨false, false⟩
  else if !db.prepareOk then ⟨false, true⟩
  else if !db.execOk then ⟨false, true⟩
  else if !db.commitOk then ⟨false, true⟩
  else ⟨true, true⟩

/-! ## Differential SQL execution (`db.ExecuteSQL` and the scheduler job) -/

/-- What one run of the SQL path did: the error returned, the number of
`db.Exec` calls made, and the backoff sleeps performed (in milliseconds). -/
structure ExecOutcome where
  finalErr : Option String
  attempts : ℕ
  sleepsMs : List ℕ
deriving DecidableEq

/-- `db.ExecuteSQL`: a single `db.Exec(query)` whose error is logged and
returned.  The oracle gives the outcome of each successive execution
attempt; the source makes exactly one. -/
def ExecuteSQL (oracle : ℕ → Option String) : ExecOutcome :=
  { finalErr := oracle 0, attempts := 1, sleepsMs := [] }

/-- The scheduler's `updateDiffs` job body: load the SQL file and, when the
load succeeds, call `ExecuteSQL` once, only logging any error. -/
def updateDiffsSqlJobRun (loadOk : Bool) (oracle : ℕ → Option String) :
    ExecOutcome :=
  if loadOk then ExecuteSQL oracle
  else { finalErr := none, attempts := 0, sleepsMs := [] }

/-! ## Claim theorems -/

/-- Claim C9: `generateNumberedPlaceholders(rows, fieldCount)` is the
comma-separated string of exactly `rows` parenthesised groups, each holding
exactly `fieldCount` positional placeholders, numbered consecutively from
`$1` to `$(rows*fieldCount)` in row-major order — one placeholder per scalar
field per row. -/
theorem generateNumberedPlaceholders_rowMajor (rows fieldCount : ℕ) :
    generateNumberedPlaceholders rows fieldCount
      = numberedPlaceholdersSpec rows fieldCount ∧
    (placeholderRows rows 1 fieldCount).length = rows := by
  constructor
  · unfold generateNumberedPlaceholders numberedPlaceholdersSpec
    rw [placeholderRows_eq_map]
    congr 1
    apply List.map_congr_left
    intro i _
    unfold placeholderGroup
    have hinner :
        ((List.range fieldCount).map fun j => "$" ++ toString (1 + i * fieldCount + j))
          = ((List.range fieldCount).map fun j => "$" ++ toString (i * fieldCount + j + 1)) := by
      apply List.map_congr_left
      intro j _
      have hj : 1 + i * fieldCount + j = i * fieldCount + j + 1 := by omega
      rw [hj]
    rw [hinner]
  · rw [placeholderRows_eq_map, List.length_map, List.length_range]

/-- Claim C10: `calculatePercentChange` is total and never divides by zero —
a zero `open` short-circuits to 0, otherwise the percent-change formula
`((close - open) / open) * 100` is returned. -/
theorem calculatePercentChange_total (openPrice closePrice : ℚ) :
    (openPrice = 0 → calculatePercentChange openPrice closePrice = 0) ∧
    (openPrice ≠ 0 →
      calculatePercentChange openPrice closePrice
        = ((closePrice - openPrice) / openPrice) * 100) := by
  constructor
  · intro h; simp [calculatePercentChange, h]
  · intro h; simp [calculatePercentChange, h]

theorem calculatePercentChange_total_witness :
    calculatePercentChange 0 7 = 0 ∧ calculatePercentChange 100 101 = 1 := by
  constructor
  · exact (calculatePercentChange_total 0 7).1 rfl
  · have h := (calculatePercentChange_total 100 101).2 (by norm_num)
    rw [h]; norm_num

/-- Claim C8 (amended): the differential SQL statement is executed exactly
once per scheduled invocation — there is no deadlock detection, no retry and
no backoff sleep, whatever error the execution returns (in particular for
errors whose message contains "deadlock"); a failed file load skips the
execution entirely, and adapter upserts are likewise never retried
in-process. -/
theorem updateDiffsSqlJob_no_retry (loadOk : Bool) (oracle : ℕ → Option String) :
    (updateDiffsSqlJobRun loadOk oracle).attempts ≤ 1 ∧
    (updateDiffsSqlJobRun loadOk oracle).sleepsMs = [] ∧
    (loadOk = true →
      (updateDiffsSqlJobRun loadOk oracle).attempts = 1 ∧
      (updateDiffsSqlJobRun loadOk oracle).finalErr = oracle 0) := by
  cases loadOk <;> simp [updateDiffsSqlJobRun, ExecuteSQL]

theorem updateDiffsSqlJob_no_retry_witness :
    (updateDiffsSqlJobRun true (fun _ => some "deadlock detected")).attempts = 1 ∧
    (updateDiffsSqlJobRun true (fun _ => some "deadlock detected")).sleepsMs = [] := by
  refine ⟨?_, ?_⟩
  · exact ((updateDiffsSqlJob_no_retry true (fun _ => some "deadlock detected")).2.2 rfl).1
  · exact (updateDiffsSqlJob_no_retry true (fun _ => some "deadlock detected")).2.1

/-- Claim C8 counterexample: with every execution attempt failing with a
message containing "deadlock", the job makes a single attempt and performs
no backoff sleeps — not the three retries at 100/200/300 ms the claim
describes. -/
theorem updateDiffsSqlJob_deadlock_counterexample :
    (updateDiffsSqlJobRun true (fun _ => some "deadlock detected")).attempts = 1 ∧
    (updateDiffsSqlJobRun true (fun _ => some "deadlock detected")).sleepsMs = [] ∧
    ¬((updateDiffsSqlJobRun true (fun _ => some "deadlock detected")).sleepsMs
        = [100, 200, 300]) := by
  refine ⟨rfl, rfl, by decide⟩

/-- Claim C7 (amended): an empty batch short-circuits before `db.Begin()`
in the kraken and huobi writers but returns failure (`false`), not success;
the okx writer has no empty-batch guard at all and opens a transaction
whenever `db.Begin()` succeeds, empty batch or not. -/
theorem emptyBatch_behavior (db : DbConn) :
    savePairsToDB db [] = ⟨false, false⟩ ∧
    huobiWritePairs db [] = ⟨false, false⟩ ∧
    (okxWritePairs db []).openedTx = db.beginOk := by
  refine ⟨rfl, rfl, ?_⟩
  obtain ⟨b, p, e, c⟩ := db
  cases b <;> cases p <;> cases e <;> cases c <;> rfl

/-- Claim C7 counterexample: on an empty batch (with a healthy database),
`kraken.savePairsToDB` returns `false`, not the success the claim states. -/
theorem emptyBatch_counterexample :
    (savePairsToDB ⟨true, true, true, true⟩ []).result = false ∧
    (savePairsToDB ⟨true, true, true, true⟩ []).openedTx = false :=
  ⟨rfl, rfl⟩

/-- Claim C1: lifetime preservation in the spot recomputation.  For every
row the run writes (the upsert copies `timeOfLife` / `timeElapsed` verbatim
from `EXCLUDED`): with a positive new `differencePercentage` and a prior row
holding a non-null `timeOfLife`, the anchor is kept and the elapsed time
accumulates by `now - prior.timeOfLife`; with a positive percentage but no
prior anchor, the anchor becomes `now` with zero elapsed; with a
non-positive percentage both are reset. -/
theorem updatingData_lifetime (now : ℚ) (prev : String → Option StoredDiff)
    (ps : List PairRow) (r : UpdRow) (hr : r ∈ updatingData now prev ps) :
    (∀ p t, prev r.pairKey = some p → p.timeOfLife = some t →
        0 < r.differencePercentage →
        r.timeOfLife = some t ∧ r.timeElapsed = p.timeElapsed + (now - t)) ∧
    (0 < r.differencePercentage →
        (prev r.pairKey).bind StoredDiff.timeOfLife = none →
        r.timeOfLife = some now ∧ r.timeElapsed = 0) ∧
    (r.differencePercentage ≤ 0 → r.timeOfLife = none ∧ r.timeElapsed = 0) := by
  simp only [updatingData, List.mem_map] at hr
  obtain ⟨d, hd, rfl⟩ := hr
  simp only [updRow]
  by_cases hpos : d.differencePercentage > 0
  · simp only [if_pos hpos]
    refine ⟨?_, ?_, ?_⟩
    · intro p t hp ht _
      rw [hp]
      simp [ht]
    · intro _ hnone
      rcases hq : prev d.pairKey with _ | p
      · rw [hq] at hnone
        simp
      · rw [hq] at hnone
        simp only [Option.some_bind] at hnone
        simp [hnone]
    · intro hle
      exact absurd hpos (not_lt.mpr hle)
  · simp only [if_neg hpos]
    refine ⟨?_, ?_, ?_⟩
    · intro p t _ _ hpos'
      exact absurd hpos' hpos
    · intro hpos' _
      exact absurd hpos' hpos
    · intro _
      simp

/-- Snapshot row on venue `ExA` used by the witnesses. -/
def wPairA : PairRow :=
  { symbol := "BTCUSDT", exchange := "ExA", market := "spot", price := 100
  , baseVolume24h := 1, baseAsset := "BTC", quoteAsset := "USDT" }

/-- Snapshot row on venue `ExB` used by the witnesses. -/
def wPairB : PairRow :=
  { symbol := "BTCUSDT", exchange := "ExB", market := "spot", price := 101
  , baseVolume24h := 2, baseAsset := "BTC", quoteAsset := "USDT" }

theorem updatingData_lifetime_witness :
    (updRow 1000 (fun _ => none) (calcDiff (mkCombo wPairA wPairB))).timeOfLife
        = some 1000 ∧
    (updRow 1000 (fun _ => none) (calcDiff (mkCombo wPairA wPairB))).timeElapsed
        = 0 := by
  have hmem : updRow 1000 (fun _ => none) (calcDiff (mkCombo wPairA wPairB))
      ∈ updatingData 1000 (fun _ => none) [wPairA, wPairB] := by
    simp only [updatingData, calculatedDiffs]
    exact List.mem_map_of_mem _ (List.mem_map_of_mem _
      (mkCombo_mem_marketCombinations (by simp) (by simp) rfl
        (by decide) (by norm_num [wPairA]) (by norm_num [wPairB])))
  have hdp : 0 < (updRow 1000 (fun _ => none)
      (calcDiff (mkCombo wPairA wPairB))).differencePercentage := by
    show 0 < (calcDiff (mkCombo wPairA wPairB)).differencePercentage
    norm_num [calcDiff, mkCombo, wPairA, wPairB, truncScale, ratTruncZ_def]
  exact (updatingData_lifetime 1000 (fun _ => none) [wPairA, wPairB] _ hmem).2.1
    hdp rfl

/-- Claim C2: every row written by the spot recomputation takes its
`differencePercentage` from the formula
`trunc(((secondPairPrice - firstPairPrice) / firstPairPrice) * 100, 2)`
over the joined snapshot prices, clamped to `[-1e9, 1e9]`, with the join
filter guaranteeing the divisor `firstPairPrice` is non-zero. -/
theorem updatingData_differencePercentage (now : ℚ)
    (prev : String → Option StoredDiff) (ps : List PairRow) (r : UpdRow)
    (hr : r ∈ updatingData now prev ps) :
    ∃ c ∈ marketCombinations ps,
      c.firstPairPrice ≠ 0 ∧
      r.differencePercentage
        = max (-1000000000)
            (min (truncScale 2
                (((c.secondPairPrice - c.firstPairPrice) / c.firstPairPrice) * 100))
              1000000000) ∧
      -1000000000 ≤ r.differencePercentage ∧
      r.differencePercentage ≤ 1000000000 := by
  simp only [updatingData, calculatedDiffs, List.map_map, List.mem_map,
    Function.comp] at hr
  obtain ⟨c, hc, rfl⟩ := hr
  obtain ⟨a, _, b, _, _, _, h3, _, hcab⟩ := mem_marketCombinations hc
  have hfp : c.firstPairPrice ≠ 0 := by
    rw [hcab]
    exact h3
  have hdp : (updRow now prev (calcDiff c)).differencePercentage
      = max (-1000000000)
          (min (truncScale 2
              (((c.secondPairPrice - c.firstPairPrice) / c.firstPairPrice) * 100))
            1000000000) := by
    show (calcDiff c).differencePercentage = _
    simp only [calcDiff]
    exact sqlClamp_eq_max_min _
  refine ⟨c, hc, hfp, hdp, ?_, ?_⟩
  · rw [hdp]
    exact le_max_left _ _
  · rw [hdp]
    exact max_le (by norm_num) (min_le_right _ _)

theorem updatingData_differencePercentage_witness :
    ∃ c ∈ marketCombinations [wPairA, wPairB],
      c.firstPairPrice ≠ 0 ∧
      (updRow 1000 (fun _ => none) (calcDiff (mkCombo wPairA wPairB))).differencePercentage
        = max (-1000000000)
            (min (truncScale 2
                (((c.secondPairPrice - c.firstPairPrice) / c.firstPairPrice) * 100))
              1000000000) ∧
      -1000000000 ≤ (updRow 1000 (fun _ => none)
          (calcDiff (mkCombo wPairA wPairB))).differencePercentage ∧
      (updRow 1000 (fun _ => none)
          (calcDiff (mkCombo wPairA wPairB))).differencePercentage ≤ 1000000000 := by
  apply updatingData_differencePercentage 1000 (fun _ => none) [wPairA, wPairB]
  simp only [updatingData, calculatedDiffs]
  exact List.mem_map_of_mem _ (List.mem_map_of_mem _
    (mkCombo_mem_marketCombinations (by simp) (by simp) rfl
      (by decide) (by norm_num [wPairA]) (by norm_num [wPairB])))

/-- Claim C3: for any two snapshot rows with the same symbol, distinct
exchanges and non-zero prices, the recomputation emits both ordered rows
`(A, B)` and `(B, A)`, whose `difference` values are the scale-8 roundings
of the two opposite price gaps and hence exact negations of each other. -/
theorem calculatedDiffs_symmetry (ps : List PairRow) (a b : PairRow)
    (ha : a ∈ ps) (hb : b ∈ ps) (hsym : a.symbol = b.symbol)
    (hex : a.exchange ≠ b.exchange) (hpa : a.price ≠ 0) (hpb : b.price ≠ 0) :
    calcDiff (mkCombo a b) ∈ calculatedDiffs ps ∧
    calcDiff (mkCombo b a) ∈ calculatedDiffs ps ∧
    (calcDiff (mkCombo a b)).firstPairExchange = a.exchange ∧
    (calcDiff (mkCombo a b)).secondPairExchange = b.exchange ∧
    (calcDiff (mkCombo a b)).symbol = a.symbol ∧
    (calcDiff (mkCombo b a)).firstPairExchange = b.exchange ∧
    (calcDiff (mkCombo b a)).secondPairExchange = a.exchange ∧
    (calcDiff (mkCombo a b)).difference = roundScale 8 (b.price - a.price) ∧
    (calcDiff (mkCombo b a)).difference = roundScale 8 (a.price - b.price) ∧
    (calcDiff (mkCombo a b)).difference = -(calcDiff (mkCombo b a)).difference := by
  refine ⟨?_, ?_, rfl, rfl, rfl, rfl, rfl, rfl, rfl, ?_⟩
  · exact List.mem_map_of_mem _
      (mkCombo_mem_marketCombinations ha hb hsym hex hpa hpb)
  · exact List.mem_map_of_mem _
      (mkCombo_mem_marketCombinations hb ha hsym.symm (Ne.symm hex) hpb hpa)
  · show roundScale 8 (b.price - a.price) = -(roundScale 8 (a.price - b.price))
    rw [show a.price - b.price = -(b.price - a.price) by ring, roundScale_neg,
      neg_neg]

theorem calculatedDiffs_symmetry_witness :
    calcDiff (mkCombo wPairA wPairB) ∈ calculatedDiffs [wPairA, wPairB] ∧
    calcDiff (mkCombo wPairB wPairA) ∈ calculatedDiffs [wPairA, wPairB] ∧
    (calcDiff (mkCombo wPairA wPairB)).difference
      = -(calcDiff (mkCombo wPairB wPairA)).difference := by
  have h := calculatedDiffs_symmetry [wPairA, wPairB] wPairA wPairB
    (by simp) (by simp) rfl (by decide) (by norm_num [wPairA]) (by norm_num [wPairB])
  exact ⟨h.1, h.2.1, h.2.2.2.2.2.2.2.2.2⟩

/-- Claim C4 (amended): the okx and huobi spot adapters drop every ticker
entry whose sanitised price is non-positive, so each record they hand to
the snapshot writer has strictly positive price; the bybit, gate, kraken
and binance spot adapters perform no such check and can emit records with
non-positive price (see the counterexample). -/
theorem okx_huobi_positive_price (ts : List OkxTicker)
    (syms : List HuobiSymbol) (hts : List HuobiTicker) (r : GoPair) :
    (r ∈ okxPairs ts → 0 < r.price) ∧
    (r ∈ huobiPairs syms hts → 0 < r.price) := by
  constructor
  · intro hr
    rcases List.mem_filterMap.mp hr with ⟨d, -, hd⟩
    unfold okxPairOfTicker at hd
    split at hd
    · dsimp only at hd
      split at hd
      · exact absurd hd (by simp)
      · next hle =>
          obtain rfl := Option.some.inj hd
          push_neg at hle
          exact hle
    · exact absurd hd (by simp)
  · intro hr
    rcases List.mem_filterMap.mp hr with ⟨s0, -, hd⟩
    unfold huobiPairOfSymbol at hd
    split at hd
    · exact absurd hd (by simp)
    · split at hd
      · exact absurd hd (by simp)
      · dsimp only at hd
        split at hd
        · exact absurd hd (by simp)
        · next hle =>
            obtain rfl := Option.some.inj hd
            push_neg at hle
            exact hle

/-- OKX ticker fixture used by the witnesses. -/
def wOkxTicker : OkxTicker :=
  { instId := "BTC-USDT", last := 100, vol24h := 1, volCcy24h := 2
  , change24h := some 1, open24h := none }

/-- The record okx normalisation produces from `wOkxTicker`. -/
def wOkxRecord : GoPair :=
  { pairKey := "BTCUSDT_OKX_spot", symbol := "BTCUSDT", exchange := "OKX"
  , market := "spot", price := 100, baseAsset := "BTC", quoteAsset := "USDT"
  , displayName := "BTC/USDT", priceChangePercent24h := 1
  , baseVolume24h := 1, quoteVolume24h := 2 }

theorem okxPairOfTicker_eval : okxPairOfTicker wOkxTicker = some wOkxRecord := by
  have h1 : sanitizeDecimal (.finite 100) MAX_DECIMAL_18_8 8 = 100 := by
    norm_num [sanitizeDecimal, roundScale, ratRoundHalfAway_def, MAX_DECIMAL_18_8]
  have h2 : sanitizeDecimal (.finite 1) MAX_DECIMAL_20_2 2 = 1 := by
    norm_num [sanitizeDecimal, roundScale, ratRoundHalfAway_def, MAX_DECIMAL_20_2]
  have h3 : sanitizeDecimal (.finite 2) MAX_DECIMAL_20_2 2 = 2 := by
    norm_num [sanitizeDecimal, roundScale, ratRoundHalfAway_def, MAX_DECIMAL_20_2]
  have h4 : sanitizeDecimal (.finite 1) MAX_DECIMAL_10_2 2 = 1 := by
    norm_num [sanitizeDecimal, roundScale, ratRoundHalfAway_def, MAX_DECIMAL_10_2]
  unfold okxPairOfTicker
  simp only [wOkxTicker]
  rw [show goSplit '-' "BTC-USDT" = ["BTC", "USDT"] from rfl]
  dsimp only
  rw [h1, h2, h3, h4]
  rw [if_neg (by norm_num : ¬ (100 : ℚ) ≤ 0)]
  rw [show goRemoveChar '-' "BTC-USDT" = "BTCUSDT" from rfl]
  rfl

theorem okxPairs_eval : okxPairs [wOkxTicker] = [wOkxRecord] := by
  simp [okxPairs, List.filterMap_cons, okxPairOfTicker_eval]

theorem wOkxRecord_mem : wOkxRecord ∈ okxPairs [wOkxTicker] := by
  rw [okxPairs_eval]
  exact List.mem_singleton.mpr rfl

/-- Huobi symbol fixture used by the witnesses and the C5 counterexample. -/
def wHuobiSymbol : HuobiSymbol :=
  { symbol := "btcusdt", baseCurrency := "btc", quoteCurrency := "usdt"
  , state := "online" }

/-- Huobi ticker fixture used by the witnesses and the C5 counterexample. -/
def wHuobiTicker : HuobiTicker :=
  { symbol := "btcusdt", openPrice := 100, closePrice := 101, amount := 1
  , vol := 2 }

/-- The record huobi normalisation produces from the fixtures. -/
def wHuobiRecord : GoPair :=
  { pairKey := "BTCUSDT_HUOBI_SPOT", symbol := "BTCUSDT", exchange := "Huobi"
  , market := "spot", price := 101, baseAsset := "BTC", quoteAsset := "USDT"
  , displayName := "BTC/USDT", priceChangePercent24h := 1
  , baseVolume24h := 1, quoteVolume24h := 2 }

theorem huobiPairOfSymbol_eval :
    huobiPairOfSymbol [wHuobiTicker] wHuobiSymbol = some wHuobiRecord := by
  have hpc : calculatePercentChange 100 101 = 1 := by
    norm_num [calculatePercentChange]
  have h1 : sanitizeDecimal (.finite 101) MAX_DECIMAL_18_8 8 = 101 := by
    norm_num [sanitizeDecimal, roundScale, ratRoundHalfAway_def, MAX_DECIMAL_18_8]
  have h2 : sanitizeDecimal (.finite 1) MAX_DECIMAL_20_2 2 = 1 := by
    norm_num [sanitizeDecimal, roundScale, ratRoundHalfAway_def, MAX_DECIMAL_20_2]
  have h3 : sanitizeDecimal (.finite 2) MAX_DECIMAL_20_2 2 = 2 := by
    norm_num [sanitizeDecimal, roundScale, ratRoundHalfAway_def, MAX_DECIMAL_20_2]
  have h4 : sanitizeDecimal (.finite 1) MAX_DECIMAL_10_2 2 = 1 := by
    norm_num [sanitizeDecimal, roundScale, ratRoundHalfAway_def, MAX_DECIMAL_10_2]
  unfold huobiPairOfSymbol
  simp only [wHuobiSymbol]
  rw [if_neg (by decide : ¬ ("online" : String) ≠ "online")]
  rw [show goMapLookup HuobiTicker.symbol [wHuobiTicker] "btcusdt"
      = some wHuobiTicker from rfl]
  dsimp only
  simp only [wHuobiTicker]
  rw [hpc, h1, h2, h3, h4]
  rw [if_neg (by norm_num : ¬ (101 : ℚ) ≤ 0)]
  rfl

theorem huobiPairs_eval :
    huobiPairs [wHuobiSymbol] [wHuobiTicker] = [wHuobiRecord] := by
  simp [huobiPairs, List.filterMap_cons, huobiPairOfSymbol_eval]

theorem wHuobiRecord_mem :
    wHuobiRecord ∈ huobiPairs [wHuobiSymbol] [wHuobiTicker] := by
  rw [huobiPairs_eval]
  exact List.mem_singleton.mpr rfl

theorem okx_huobi_positive_price_witness :
    0 < wOkxRecord.price ∧ 0 < wHuobiRecord.price := by
  constructor
  · exact (okx_huobi_positive_price [wOkxTicker] [] [] wOkxRecord).1 wOkxRecord_mem
  · exact (okx_huobi_positive_price [] [wHuobiSymbol] [wHuobiTicker]
      wHuobiRecord).2 wHuobiRecord_mem

/-- Bybit fixture: a tradable symbol whose ticker parses to a zero price. -/
def wBybitSymbol : BybitSymbol :=
  { symbol := "FOOUSDT", baseAsset := "FOO", quoteAsset := "USDT" }

/-- Bybit ticker fixture with `lastPrice` parsed to 0. -/
def wBybitTicker : BybitTicker :=
  { symbol := "FOOUSDT", lastPrice := 0, priceChange24h := 0
  , baseVolume24h := 5, quoteVolume24h := 0 }

/-- Claim C4 counterexample: the bybit spot adapter hands the snapshot
writer a batch containing a record with price 0 for that symbol and
exchange — entries with non-positive price are not dropped by every
adapter. -/
theorem bybit_zero_price_counterexample :
    (bybitPairs [wBybitSymbol] [wBybitTicker]).map GoPair.price = [0] ∧
    (bybitPairs [wBybitSymbol] [wBybitTicker]).map GoPair.symbol = ["FOOUSDT"] ∧
    (bybitPairs [wBybitSymbol] [wBybitTicker]).map GoPair.exchange = ["Bybit"] := by
  refine ⟨rfl, rfl, rfl⟩

/-- Claim C5 (amended): every okx spot record satisfies
`pairKey = symbol ++ "_" ++ exchange ++ "_" ++ market` exactly; every huobi
spot record instead carries `trunc50(symbol ++ "_HUOBI_SPOT")` — the fully
uppercased form, which differs from
`symbol ++ "_" ++ exchange ++ "_" ++ market` in the case of the exchange
and market segments. -/
theorem pairKey_shape (ts : List OkxTicker) (syms : List HuobiSymbol)
    (hts : List HuobiTicker) (r : GoPair) :
    (r ∈ okxPairs ts →
      r.pairKey = r.symbol ++ "_" ++ r.exchange ++ "_" ++ r.market) ∧
    (r ∈ huobiPairs syms hts →
      r.pairKey = goTrunc 50 (r.symbol ++ "_HUOBI_SPOT")) := by
  constructor
  · intro hr
    rcases List.mem_filterMap.mp hr with ⟨d, -, hd⟩
    unfold okxPairOfTicker at hd
    split at hd
    · dsimp only at hd
      split at hd
      · exact absurd hd (by simp)
      · obtain rfl := Option.some.inj hd
        show goRemoveChar '-' d.instId ++ "_OKX_spot"
          = goRemoveChar '-' d.instId ++ "_" ++ "OKX" ++ "_" ++ "spot"
        have h : ("_" ++ ("OKX" ++ ("_" ++ "spot")) : String) = "_OKX_spot" := rfl
        rw [String.append_assoc, String.append_assoc, String.append_assoc, h]
    · exact absurd hd (by simp)
  · intro hr
    rcases List.mem_filterMap.mp hr with ⟨s0, -, hd⟩
    unfold huobiPairOfSymbol at hd
    split at hd
    · exact absurd hd (by simp)
    · split at hd
      · exact absurd hd (by simp)
      · dsimp only at hd
        split at hd
        · exact absurd hd (by simp)
        · obtain rfl := Option.some.inj hd
          rfl

theorem pairKey_shape_witness :
    wOkxRecord.pairKey
      = wOkxRecord.symbol ++ "_" ++ wOkxRecord.exchange ++ "_" ++ wOkxRecord.market ∧
    wHuobiRecord.pairKey = goTrunc 50 (wHuobiRecord.symbol ++ "_HUOBI_SPOT") := by
  constructor
  · exact (pairKey_shape [wOkxTicker] [] [] wOkxRecord).1 wOkxRecord_mem
  · exact (pairKey_shape [] [wHuobiSymbol] [wHuobiTicker] wHuobiRecord).2
      wHuobiRecord_mem

/-- Claim C5 counterexample: the huobi record built from symbol `btcusdt`
has `pairKey = "BTCUSDT_HUOBI_SPOT"`, while the concatenation
`symbol ++ "_" ++ exchange ++ "_" ++ market` of the same record is
`"BTCUSDT_Huobi_spot"` — the two differ, so the claimed equality fails. -/
theorem huobi_pairKey_counterexample :
    (huobiPairs [wHuobiSymbol] [wHuobiTicker]).map GoPair.pairKey
      = ["BTCUSDT_HUOBI_SPOT"] ∧
    (huobiPairs [wHuobiSymbol] [wHuobiTicker]).map
        (fun r => r.symbol ++ "_" ++ r.exchange ++ "_" ++ r.market)
      = ["BTCUSDT_Huobi_spot"] ∧
    ("BTCUSDT_HUOBI_SPOT" : String) ≠ "BTCUSDT_Huobi_spot" := by
  refine ⟨?_, ?_, by decide⟩
  · rw [huobiPairs_eval]
    rfl
  · rw [huobiPairs_eval]
    rfl

theorem roundScale_intDiv (s : ℕ) (k : ℤ) :
    roundScale s ((k : ℚ) / 10 ^ s) = (k : ℚ) / 10 ^ s := by
  unfold roundScale
  have hpow : ((10 : ℚ) ^ s) ≠ 0 := by positivity
  rw [div_mul_cancel₀ _ hpow, ratRoundHalfAway_intCast]

/-- Claim C6 (amended): `sanitizeDecimal` maps NaN and both infinities to 0
(not to the bound `m`); for a nonnegative bound the result on a finite
input lies in `[-roundScale s m, roundScale s m]` — in `[-m, m]` itself
whenever `m` has at most `s` fractional digits — and every result is an
integer multiple of `10^(-s)`, i.e. its decimal representation has at most
`s` fractional digits. -/
theorem sanitizeDecimal_props (v m : ℚ) (s : ℕ) (hm : 0 ≤ m) :
    sanitizeDecimal .nan m s = 0 ∧
    sanitizeDecimal (.inf false) m s = 0 ∧
    sanitizeDecimal (.inf true) m s = 0 ∧
    -(roundScale s m) ≤ sanitizeDecimal (.finite v) m s ∧
    sanitizeDecimal (.finite v) m s ≤ roundScale s m ∧
    ((∃ k : ℤ, m = (k : ℚ) / 10 ^ s) →
      -m ≤ sanitizeDecimal (.finite v) m s ∧ sanitizeDecimal (.finite v) m s ≤ m) ∧
    (∃ k : ℤ, sanitizeDecimal (.finite v) m s = (k : ℚ) / 10 ^ s) := by
  have hclamp : -m ≤ (if v > m then m else if v < -m then -m else v) ∧
      (if v > m then m else if v < -m then -m else v) ≤ m := by
    split_ifs with h1 h2
    · exact ⟨by linarith, le_refl m⟩
    · exact ⟨le_refl (-m), by linarith⟩
    · push_neg at h1 h2
      exact ⟨h2, h1⟩
  have hlow : -(roundScale s m) ≤ sanitizeDecimal (.finite v) m s := by
    show -(roundScale s m) ≤ roundScale s _
    rw [← roundScale_neg]
    exact roundScale_mono s hclamp.1
  have hhigh : sanitizeDecimal (.finite v) m s ≤ roundScale s m := by
    show roundScale s _ ≤ roundScale s m
    exact roundScale_mono s hclamp.2
  refine ⟨rfl, rfl, rfl, hlow, hhigh, ?_, ?_⟩
  · rintro ⟨k, hk⟩
    have hfix : roundScale s m = m := by
      rw [hk]
      exact roundScale_intDiv s k
    constructor
    · calc -m = -(roundScale s m) := by rw [hfix]
        _ ≤ _ := hlow
    · exact hhigh.trans_eq hfix
  · exact ⟨ratRoundHalfAway
      ((if v > m then m else if v < -m then -m else v) * 10 ^ s), rfl⟩

theorem sanitizeDecimal_props_witness :
    sanitizeDecimal .nan 10 2 = 0 ∧
    sanitizeDecimal (.inf false) 10 2 = 0 ∧
    -10 ≤ sanitizeDecimal (.finite 3) 10 2 ∧
    sanitizeDecimal (.finite 3) 10 2 ≤ 10 := by
  have h := sanitizeDecimal_props 3 10 2 (by norm_num)
  refine ⟨h.1, h.2.1, ?_, ?_⟩
  · exact (h.2.2.2.2.2.1 ⟨1000, by norm_num⟩).1
  · exact (h.2.2.2.2.2.1 ⟨1000, by norm_num⟩).2

/-- Claim C6 counterexample: `sanitizeDecimal(+∞, 5, 2)` is 0, not the
bound 5 the claim states; and for a bound with more than `s` fractional
digits the result escapes `[-m, m]`: `sanitizeDecimal(1/200, 1/200, 2)`
rounds up to `1/100 > 1/200`. -/
theorem sanitizeDecimal_counterexample :
    sanitizeDecimal (.inf false) 5 2 = 0 ∧ (0 : ℚ) ≠ 5 ∧
    sanitizeDecimal (.finite (1/200)) (1/200) 2 = 1/100 ∧
    ¬(sanitizeDecimal (.finite (1/200)) (1/200) 2 ≤ 1/200) := by
  have hval : sanitizeDecimal (.finite (1/200 : ℚ)) (1/200) 2 = 1/100 := by
    norm_num [sanitizeDecimal, roundScale, ratRoundHalfAway_def]
  refine ⟨rfl, by norm_num, hval, ?_⟩
  rw [hval]
  norm_num
